import Mathlib

/-!
Shallow embedding of the tree-log repository (Supabase edge functions,
SQL migrations and Next.js pages) together with proofs about the
properties its specification states.

The embedding follows the source files:
* `src/supabase/functions/identify-tree/index.ts` — the newer
  `plants`/`sightings` identify handler;
* `src/unnamed/part_001`, `src/unnamed/part_003` — the legacy `trees`
  handlers;
* `src/supabase/migrations/20260102210000_create_plant_log_view.sql` —
  the `plant_log` view;
* `src/unnamed/part_000` — the `trees` table;
* `src/unnamed/part_004` — the plant detail page (`tree_entries`
  lazy create and save);
* `src/web/app/log/page.tsx`, `src/unnamed/part_005` — read-only
  `trees` queries.

JavaScript strings are modelled as Lean `String`; timestamps as `Nat`;
JSON numbers passed through unchanged as `Rat`; absent / `null` JSON
fields as `Option`.
-/

namespace TreeLog

/-! ### JavaScript string primitives

These model the exact string operations the handlers use:
`String.prototype.toLowerCase` (ASCII fragment), `String.prototype.trim`,
`replace(/\s+/g, "-")` and `replace(/[^a-z0-9-]/g, "")`.
Characters are compared through their code points. -/

/-- Whitespace in the sense of the JS regex `\s` and of `trim`:
space (32), tab (9), LF (10), VT (11), FF (12), CR (13). -/
def isWsChar (c : Char) : Bool :=
  c.toNat == 32 || c.toNat == 9 || c.toNat == 10 ||
  c.toNat == 11 || c.toNat == 12 || c.toNat == 13

/-- Characters kept by `replace(/[^a-z0-9-]/g, "")`:
`a`–`z` (97–122), `0`–`9` (48–57) and `-` (45). -/
def isSlugChar (c : Char) : Bool :=
  (97 ≤ c.toNat && c.toNat ≤ 122) || (48 ≤ c.toNat && c.toNat ≤ 57) ||
  c.toNat == 45

/-- ASCII lowercasing of one character, as `toLowerCase` acts on
`A`–`Z` (65–90). -/
def toLowerChar (c : Char) : Char :=
  if 65 ≤ c.toNat && c.toNat ≤ 90 then Char.ofNat (c.toNat + 32) else c

/-- The `trim` operation: drop whitespace from both ends of a character list. -/
def trimChars (l : List Char) : List Char :=
  ((l.dropWhile isWsChar).reverse.dropWhile isWsChar).reverse

/-- Helper for `replace(/\s+/g, "-")`: the flag records whether the
previous character was inside a whitespace run, so each maximal run
emits a single `-`. -/
def collapseWsAux : Bool → List Char → List Char
  | _, [] => []
  | prevWs, c :: rest =>
    if isWsChar c then
      if prevWs then collapseWsAux true rest
      else '-' :: collapseWsAux true rest
    else c :: collapseWsAux false rest

/-- Models `replace(/\s+/g, "-")` on a character list. -/
def collapseWs (l : List Char) : List Char :=
  collapseWsAux false l

/-- The function `slugifyKey` from `identify-tree/index.ts` lines 13–19:
lowercase, trim, whitespace runs to `-`, drop everything outside
`[a-z0-9-]`. -/
def slugifyKey (s : String) : String :=
  String.mk (((collapseWs (trimChars (s.data.map toLowerChar)))).filter isSlugChar)

/-- Models `plantKey.trim().toLowerCase().replace(/\s+/g, "-")` from
`identify-tree/index.ts` lines 236–239 (the `key_lc` sent by the first
`plants` upsert). -/
def plantKeyLcOf (k : String) : String :=
  String.mk (collapseWs ((trimChars k.data).map toLowerChar))

/-- Models `toLowerCase()` on a whole string (used for the `key_lc` of the
second `plants` upsert, line 261). -/
def toLowerStr (s : String) : String :=
  String.mk (s.data.map toLowerChar)

/-- JS `trim()` on a whole string (used by the detail page `save`,
`part_004` lines 243–244). -/
def trimStr (s : String) : String :=
  String.mk (trimChars s.data)

/-- JS `a || b` on possibly-absent strings: an absent value and the
empty string are falsy. -/
def jsOrS (a : Option String) (b : Option String) : Option String :=
  match a with
  | some s => if s = "" then b else some s
  | none => b

/-! ### PlantNet response model and best-match extraction

Models `identify-tree/index.ts` lines 193–239.  Absent JSON fields are
`Option`; numbers that are only passed through are `Rat`. -/

/-- The `url` object of a PlantNet image: `{ o, m, s }`. -/
structure UrlSet where
  o : Option String
  m : Option String
  s : Option String
deriving Repr, DecidableEq

/-- One entry of `best.images` as the handler reads it. -/
structure RawImg where
  organ : Option String
  author : Option String
  license : Option String
  citation : Option String
  url : Option UrlSet
deriving Repr, DecidableEq

/-- The `species` object of a PlantNet result. -/
structure SpeciesInfo where
  commonNames : Option (List String)
  scientificNameWithoutAuthor : Option String
  scientificName : Option String
  familySciNameWithoutAuthor : Option String
  genusSciNameWithoutAuthor : Option String
deriving Repr, DecidableEq

/-- One entry of `raw.results` (the fields the handler reads). -/
structure BestMatch where
  species : Option SpeciesInfo
  score : Option Rat
  images : Option (List RawImg)
  gbifId : Option String
  powoId : Option String
  iucnCategory : Option String
deriving Repr, DecidableEq

/-- The parsed PlantNet body: `raw.results` may be missing. -/
structure PlantNetRaw where
  results : Option (List BestMatch)
deriving Repr, DecidableEq

/-- Models `raw?.results?.[0]` (line 194). -/
def bestOf (raw : PlantNetRaw) : Option BestMatch :=
  (raw.results.getD []).head?

/-- Models `best?.species?.commonNames?.[0]` as a possibly-absent string. -/
def firstCommonName (best : Option BestMatch) : Option String :=
  best.bind (·.species) |>.bind (·.commonNames) |>.bind (·.head?)

/-- Models `best?.species?.scientificNameWithoutAuthor`. -/
def sciNameWOA (best : Option BestMatch) : Option String :=
  best.bind (·.species) |>.bind (·.scientificNameWithoutAuthor)

/-- Models `best?.species?.scientificName`. -/
def sciName (best : Option BestMatch) : Option String :=
  best.bind (·.species) |>.bind (·.scientificName)

/-- Models `commonName` (lines 197–201): `commonNames[0] || sciNameWOA ||
sciName || "Unknown"` with JS truthiness. -/
def commonNameOf (best : Option BestMatch) : String :=
  (jsOrS (firstCommonName best)
    (jsOrS (sciNameWOA best) (jsOrS (sciName best) (some "Unknown")))).getD "Unknown"

/-- Models `scientificName` (lines 203–204): `sciName || sciNameWOA || null`. -/
def scientificNameOf (best : Option BestMatch) : Option String :=
  jsOrS (sciName best) (jsOrS (sciNameWOA best) none)

/-- Models `family` (line 206). -/
def familyOf (best : Option BestMatch) : Option String :=
  best.bind (·.species) |>.bind (·.familySciNameWithoutAuthor)

/-- Models `genus` (line 207). -/
def genusOf (best : Option BestMatch) : Option String :=
  best.bind (·.species) |>.bind (·.genusSciNameWithoutAuthor)

/-- Models `commonNames` (line 208): the array when present, else `[]`. -/
def commonNamesOf (best : Option BestMatch) : List String :=
  (best.bind (·.species) |>.bind (·.commonNames)).getD []

/-- Models `confidence` (line 214): `best.score` when it is a number, else null. -/
def confidenceOf (best : Option BestMatch) : Option Rat :=
  best.bind (·.score)

/-- One reshaped reference image (lines 218–226); `url` is
`img.url?.m || img.url?.s || img.url?.o || null`. -/
structure RefImage where
  organ : Option String
  author : Option String
  license : Option String
  citation : Option String
  url : Option String
  urls : Option UrlSet
deriving Repr, DecidableEq

/-- Models `referenceImages` (lines 218–226): `(best?.images ?? []).map (...)`. -/
def referenceImagesOf (best : Option BestMatch) : List RefImage :=
  ((best.bind (·.images)).getD []).map fun img =>
    { organ := img.organ
      author := img.author
      license := img.license
      citation := img.citation
      url := jsOrS (img.url.bind (·.m))
        (jsOrS (img.url.bind (·.s)) (jsOrS (img.url.bind (·.o)) none))
      urls := img.url }

/-- Models `rawKey` (lines 229–234): `sciNameWOA || sciName || commonName ||
"unknown"` with JS truthiness, where `commonName` is the already
defaulted string of `commonNameOf`. -/
def rawKeyOf (best : Option BestMatch) : String :=
  (jsOrS (sciNameWOA best)
    (jsOrS (sciName best)
      (jsOrS (some (commonNameOf best)) (some "unknown")))).getD "unknown"

/-- Models `plantKey` (line 235). -/
def plantKeyOf (best : Option BestMatch) : String :=
  slugifyKey (rawKeyOf best)

/-! ### Database model: `plants` and `sightings`

Rows are lists; fresh ids come from counters in the state.  Upsert with
`onConflict: "key"` updates the row with the same `key` in place
(keeping its `id`) or appends a new row. -/

/-- A `plants` row (columns written by `identify-tree/index.ts`). -/
structure PlantRow where
  id : Nat
  key : String
  key_lc : String
  common_name : String
  scientific_name : Option String
  family : Option String
  genus : Option String
  reference_images : List RefImage
  plant_details : Option BestMatch
  updated_at : Option Nat
deriving Repr, DecidableEq

/-- A `sightings` row (columns written by `identify-tree/index.ts`). -/
structure SightingRow where
  id : Nat
  plant_id : Nat
  image_url : String
  lat : Option Rat
  lng : Option Rat
  confidence : Option Rat
  created_at : Nat
deriving Repr, DecidableEq

/-- The state of the newer schema's two tables. -/
structure DbState where
  plants : List PlantRow
  sightings : List SightingRow
  nextPlantId : Nat
  nextSightingId : Nat
deriving Repr, DecidableEq

/-- The columns a `plants` upsert provides.  `updated_at = none` means
the column is absent from the payload (first upsert), so an update
keeps the old value and an insert leaves it null. -/
structure PlantPayload where
  key : String
  key_lc : String
  common_name : String
  scientific_name : Option String
  family : Option String
  genus : Option String
  reference_images : List RefImage
  plant_details : Option BestMatch
  updated_at : Option Nat
deriving Repr, DecidableEq

/-- Overwrite an existing row's provided columns, keeping `id`. -/
def applyPayload (r : PlantRow) (p : PlantPayload) : PlantRow :=
  { id := r.id
    key := p.key
    key_lc := p.key_lc
    common_name := p.common_name
    scientific_name := p.scientific_name
    family := p.family
    genus := p.genus
    reference_images := p.reference_images
    plant_details := p.plant_details
    updated_at := match p.updated_at with
      | some t => some t
      | none => r.updated_at }

/-- A fresh row inserted by an upsert that found no conflict. -/
def freshPlantRow (id : Nat) (p : PlantPayload) : PlantRow :=
  { id := id
    key := p.key
    key_lc := p.key_lc
    common_name := p.common_name
    scientific_name := p.scientific_name
    family := p.family
    genus := p.genus
    reference_images := p.reference_images
    plant_details := p.plant_details
    updated_at := p.updated_at }

/-- Models `plants` upsert with `onConflict: "key"`; returns the id the
`.select("id").single()` call reads back. -/
def plantsUpsert (st : DbState) (p : PlantPayload) : DbState × Nat :=
  match st.plants.find? (fun r => r.key == p.key) with
  | some r =>
    ({ st with
        plants := st.plants.map fun q =>
          if q.key == p.key then applyPayload q p else q },
      r.id)
  | none =>
    ({ st with
        plants := st.plants ++ [freshPlantRow st.nextPlantId p]
        nextPlantId := st.nextPlantId + 1 },
      st.nextPlantId)

/-- Models `sightings` insert; returns the id and `created_at` the
`.select("id, created_at").single()` call reads back. -/
def sightingsInsert (st : DbState) (plantId : Nat) (imageUrl : String)
    (lat lng confidence : Option Rat) (now : Nat) : DbState × Nat :=
  ({ st with
      sightings := st.sightings ++
        [{ id := st.nextSightingId
           plant_id := plantId
           image_url := imageUrl
           lat := lat
           lng := lng
           confidence := confidence
           created_at := now }]
      nextSightingId := st.nextSightingId + 1 },
    st.nextSightingId)

/-! ### The identify handler (`identify-tree/index.ts`)

The handler's external effects are parameters: the outcome of each
`fetch` and whether each database call errors. -/

/-- Request body after `req.json()`: fields absent or of the wrong
type are `none` (`lat`/`lng` keep only `typeof === "number"` values). -/
structure ReqBody where
  imageUrl : Option String
  lat : Option Rat
  lng : Option Rat
  organ : Option String
deriving Repr, DecidableEq

/-- Outcome of the image `fetch`. -/
inductive FetchOutcome where
  | timeout
  | netError
  | resp (status : Nat)
deriving Repr, DecidableEq

/-- Outcome of the PlantNet `fetch`; `json = none` models a body that
`idRes.json()` fails to parse (the handler then uses `{}`). -/
inductive PNOutcome where
  | timeout
  | netError
  | resp (status : Nat) (json : Option PlantNetRaw)
deriving Repr, DecidableEq

/-- Whether each database call reports an error. -/
structure Oracle where
  firstUpsertFails : Bool
  plantUpsertFails : Bool
  sightingInsertFails : Bool
deriving Repr, DecidableEq

/-- Models `res.ok`: status in [200, 300). -/
def statusOk (s : Nat) : Bool := 200 ≤ s && s < 300

/-- Models `validOrgans` (line 95). -/
def validOrgans : List String := ["leaf", "flower", "fruit", "bark", "auto"]

/-- Models `setTimeout(() => controller.abort(), 15000)` (line 111). -/
def imageFetchTimeoutMs : Nat := 15000

/-- Models `setTimeout(() => plantNetController.abort(), 30000)` (line 159). -/
def plantNetTimeoutMs : Nat := 30000

/-- The JSON body of a successful identification (lines 303–321). -/
structure SuccessPayload where
  key : String
  id : Nat
  created_at : Nat
  name : String
  commonName : String
  scientificName : Option String
  genus : Option String
  family : Option String
  commonNames : List String
  gbifId : Option String
  powoId : Option String
  iucnCategory : Option String
  confidence : Option Rat
  features : List String
  referenceImages : List RefImage
  rawTop : Option BestMatch
deriving Repr, DecidableEq

/-- The handler's possible responses. -/
inductive HandlerResp where
  | preflight
  | methodNotAllowed
  | invalidJson
  | missingImageUrl
  | missingApiKey
  | invalidOrgan (valid : List String)
  | imageTimeout
  | imageFetchFailed (status : Nat)
  | plantNetTimeout
  | plantNetFailed (status : Nat) (details : PlantNetRaw)
  | plantUpsertFailed
  | sightingInsertFailed
  | unexpectedError
  | success (payload : SuccessPayload)
deriving Repr, DecidableEq

/-- HTTP status of each response, from the source literals. -/
def statusCodeOf : HandlerResp → Nat
  | .preflight => 204
  | .methodNotAllowed => 405
  | .invalidJson => 400
  | .missingImageUrl => 400
  | .missingApiKey => 500
  | .invalidOrgan _ => 400
  | .imageTimeout => 408
  | .imageFetchFailed _ => 400
  | .plantNetTimeout => 408
  | .plantNetFailed _ _ => 502
  | .plantUpsertFailed => 500
  | .sightingInsertFailed => 500
  | .unexpectedError => 500
  | .success _ => 200

/-- The `error` string of each error response, from the source
literals (`none` for non-error responses). -/
def errorMsgOf : HandlerResp → Option String
  | .preflight => none
  | .methodNotAllowed => some "Method not allowed"
  | .invalidJson => some "Invalid JSON body"
  | .missingImageUrl => some "Missing required field: imageUrl"
  | .missingApiKey => some "Server misconfigured: missing PLANTNET_KEY"
  | .invalidOrgan valid =>
    some ("Invalid organ type. Must be one of: " ++ String.intercalate ", " valid)
  | .imageTimeout => some "Image fetch timeout after 15 seconds"
  | .imageFetchFailed s =>
    some ("Could not fetch imageUrl (HTTP " ++ toString s ++ ")")
  | .plantNetTimeout => some "PlantNet API timeout after 30 seconds"
  | .plantNetFailed _ _ => some "PlantNet request failed"
  | .plantUpsertFailed => some "Plant upsert failed"
  | .sightingInsertFailed => some "Sighting insert failed"
  | .unexpectedError => some "Unexpected server error"
  | .success _ => none

/-- Models `best?.gbif?.id ? String(best.gbif.id) : null` (line 210),
with JS truthiness on the already-stringified field. -/
def gbifIdOf (best : Option BestMatch) : Option String :=
  jsOrS (best.bind (·.gbifId)) none

/-- Models `best?.powo?.id ? ... : null` (line 211). -/
def powoIdOf (best : Option BestMatch) : Option String :=
  jsOrS (best.bind (·.powoId)) none

/-- Models `best?.iucn?.category ? ... : null` (line 212). -/
def iucnCategoryOf (best : Option BestMatch) : Option String :=
  jsOrS (best.bind (·.iucnCategory)) none

/-- Models `organ = (body?.organ as string) || "leaf"` (line 94):
absent and empty-string organs are falsy. -/
def effectiveOrgan (organ : Option String) : String :=
  match organ with
  | none => "leaf"
  | some s => if s = "" then "leaf" else s

/-- The payload of the first `plants` upsert (lines 241–253). -/
def plantPayloadFst (best : Option BestMatch) : PlantPayload :=
  { key := plantKeyOf best
    key_lc := plantKeyLcOf (plantKeyOf best)
    common_name := commonNameOf best
    scientific_name := scientificNameOf best
    family := familyOf best
    genus := genusOf best
    reference_images := referenceImagesOf best
    plant_details := best
    updated_at := none }

/-- The payload of the second `plants` upsert (lines 256–273). -/
def plantPayloadSnd (best : Option BestMatch) (now : Nat) : PlantPayload :=
  { key := plantKeyOf best
    key_lc := toLowerStr (plantKeyOf best)
    common_name := commonNameOf best
    scientific_name := scientificNameOf best
    family := familyOf best
    genus := genusOf best
    reference_images := referenceImagesOf best
    plant_details := best
    updated_at := some now }

/-- Steps 3–5 of the handler (lines 193–323): extraction, the two
`plants` upserts, the `sightings` insert and the success body. -/
def identifyDbStep (st : DbState) (oracle : Oracle) (now : Nat)
    (b : ReqBody) (imageUrl : String) (best : Option BestMatch) :
    HandlerResp × DbState :=
  let plantKey := plantKeyOf best
  let payloadFst := plantPayloadFst best
  let payloadSnd := plantPayloadSnd best now
  -- line 241: the first upsert's result is not error-checked
  let st1 := if oracle.firstUpsertFails then st else (plantsUpsert st payloadFst).1
  if oracle.plantUpsertFails then (.plantUpsertFailed, st1)
  else
    let up := plantsUpsert st1 payloadSnd
    if oracle.sightingInsertFails then (.sightingInsertFailed, up.1)
    else
      let ins := sightingsInsert up.1 up.2 imageUrl b.lat b.lng (confidenceOf best) now
      (.success
        { key := plantKey
          id := ins.2
          created_at := now
          name := commonNameOf best
          commonName := commonNameOf best
          scientificName := scientificNameOf best
          genus := genusOf best
          family := familyOf best
          commonNames := commonNamesOf best
          gbifId := gbifIdOf best
          powoId := powoIdOf best
          iucnCategory := iucnCategoryOf best
          confidence := confidenceOf best
          features := []
          referenceImages := referenceImagesOf best
          rawTop := best },
        ins.1)

/-- The whole handler (`Deno.serve` callback), with its external
effects (fetch outcomes, database errors) as parameters. -/
def identify (st : DbState) (oracle : Oracle) (now : Nat)
    (method : String) (body : Option ReqBody) (hasApiKey : Bool)
    (imgOutcome : FetchOutcome) (pnOutcome : PNOutcome) :
    HandlerResp × DbState :=
  if method = "OPTIONS" then (.preflight, st)
  else if method ≠ "POST" then (.methodNotAllowed, st)
  else
    match body with
    | none => (.invalidJson, st)
    | some b =>
      match b.imageUrl with
      | none => (.missingImageUrl, st)
      | some u =>
        if u = "" then (.missingImageUrl, st)
        else if ¬ hasApiKey then (.missingApiKey, st)
        else if effectiveOrgan b.organ ∉ validOrgans then
          (.invalidOrgan validOrgans, st)
        else
          match imgOutcome with
          | .timeout => (.imageTimeout, st)
          | .netError => (.unexpectedError, st)
          | .resp s =>
            if ¬ statusOk s then (.imageFetchFailed s, st)
            else
              match pnOutcome with
              | .timeout => (.plantNetTimeout, st)
              | .netError => (.unexpectedError, st)
              | .resp ps json =>
                let raw := json.getD ⟨none⟩
                if ¬ statusOk ps then (.plantNetFailed ps raw, st)
                else identifyDbStep st oracle now b u (bestOf raw)

/-! ### The legacy `trees` table and the `plant_log` view

`trees` columns follow the DDL in `src/unnamed/part_000`; the view
follows `20260102210000_create_plant_log_view.sql`. -/

/-- A `trees` row. -/
structure TreeRow where
  id : Nat
  created_at : Nat
  image_path : Option String
  image_url : Option String
  lat : Option Rat
  lng : Option Rat
  identified_name : Option String
  scientific_name : Option String
  genus : Option String
  family : Option String
  common_names : Option (List String)
  gbif_id : Option String
  powo_id : Option String
  iucn_category : Option String
  confidence : Option Rat
  features : Option (List String)
deriving Repr, DecidableEq

/-- A `plant_log` row: the view's column list, with
`created_at AS last_seen`. -/
structure LogRow where
  id : Nat
  scientific_name : Option String
  identified_name : Option String
  genus : Option String
  family : Option String
  common_names : Option (List String)
  gbif_id : Option String
  powo_id : Option String
  iucn_category : Option String
  confidence : Option Rat
  image_url : Option String
  image_path : Option String
  lat : Option Rat
  lng : Option Rat
  features : Option (List String)
  last_seen : Nat
deriving Repr, DecidableEq

/-- The view's projection of a `trees` row. -/
def toLogRow (r : TreeRow) : LogRow :=
  { id := r.id
    scientific_name := r.scientific_name
    identified_name := r.identified_name
    genus := r.genus
    family := r.family
    common_names := r.common_names
    gbif_id := r.gbif_id
    powo_id := r.powo_id
    iucn_category := r.iucn_category
    confidence := r.confidence
    image_url := r.image_url
    image_path := r.image_path
    lat := r.lat
    lng := r.lng
    features := r.features
    last_seen := r.created_at }

/-- The rows of one species group (`WHERE scientific_name IS NOT NULL`
restricted to one name). -/
def rowsFor (n : String) (trees : List TreeRow) : List TreeRow :=
  trees.filter fun r => r.scientific_name == some n

/-- The distinct non-null scientific names of the table. -/
def dedupNames (trees : List TreeRow) : List String :=
  (trees.filterMap (·.scientific_name)).dedup

/-- The group's representative under `ORDER BY created_at DESC`:
a row with the greatest `created_at`. -/
def maxByCreated (r : TreeRow) (rs : List TreeRow) : TreeRow :=
  rs.foldl (fun acc x => if acc.created_at < x.created_at then x else acc) r

/-- The `plant_log` view: `SELECT DISTINCT ON (scientific_name) …
WHERE scientific_name IS NOT NULL ORDER BY scientific_name,
created_at DESC` — one row per distinct non-null scientific name,
namely the group's latest row. -/
def plantLog (trees : List TreeRow) : List LogRow :=
  (dedupNames trees).filterMap fun n =>
    match rowsFor n trees with
    | [] => none
    | r :: rs => some (toLogRow (maxByCreated r rs))

/-! ### The repertoire of `trees` operations in the repository

Writes: the legacy handlers' inserts (`src/unnamed/part_001` lines
231–258, `src/unnamed/part_003` lines 196–216).  Reads: the log pages'
selects (`src/web/app/log/page.tsx` lines 26–41, `src/unnamed/part_005`).
No code path issues an update or a delete against `trees`. -/

/-- An operation some handler or page performs on `trees`. -/
inductive TreesOp where
  | insert (r : TreeRow)
  | select
deriving Repr, DecidableEq

/-- Effect of one operation on the table. -/
def applyTreesOp (trees : List TreeRow) : TreesOp → List TreeRow
  | .insert r => trees ++ [r]
  | .select => trees

/-- Effect of a sequence of operations. -/
def applyTreesOps (trees : List TreeRow) (ops : List TreesOp) : List TreeRow :=
  ops.foldl applyTreesOp trees

/-! ### `tree_entries` (plant detail page, `src/unnamed/part_004`) -/

/-- A `tree_entries` row. -/
structure TreeEntry where
  key : String
  display_name : Option String
  notes : Option String
  created_at : Nat
  updated_at : Option Nat
deriving Repr, DecidableEq

/-- Models `.from("tree_entries").select(...).eq("key", k).maybeSingle()`. -/
def findEntry (es : List TreeEntry) (k : String) : Option TreeEntry :=
  es.find? fun e => e.key == k

/-- The lazy-create part of `load` (`part_004` lines 149–187): return
the existing row for the key, or insert
`{ key, display_name: log?.name ?? null, notes: null }` and return it. -/
def loadEntryStep (es : List TreeEntry) (k : String) (logName : Option String)
    (now : Nat) : List TreeEntry × TreeEntry :=
  match findEntry es k with
  | some e => (es, e)
  | none =>
    let e : TreeEntry :=
      { key := k, display_name := logName, notes := none,
        created_at := now, updated_at := none }
    (es ++ [e], e)

/-- Models `save` (`part_004` lines 237–270): upsert by `key` with the trimmed
display name and notes, storing null for an empty trimmed value. -/
def saveEntryStep (es : List TreeEntry) (k : String)
    (displayName notes : String) (now : Nat) : List TreeEntry :=
  let dn := if trimStr displayName = "" then none else some (trimStr displayName)
  let nt := if trimStr notes = "" then none else some (trimStr notes)
  match findEntry es k with
  | some _ =>
    es.map fun e =>
      if e.key == k then
        { e with display_name := dn, notes := nt, updated_at := some now }
      else e
  | none =>
    es ++ [{ key := k, display_name := dn, notes := nt,
             created_at := now, updated_at := some now }]

/-! ### Auxiliary states and predicates used by the theorems -/

/-- An empty database. -/
def emptyDb : DbState := { plants := [], sightings := [], nextPlantId := 0, nextSightingId := 0 }

/-- A database-failure oracle in which every call succeeds. -/
def noFailOracle : Oracle :=
  { firstUpsertFails := false, plantUpsertFails := false, sightingInsertFails := false }

/-- Referential integrity: every sighting points at an existing plant. -/
def sightingsRefPlants (st : DbState) : Prop :=
  ∀ s ∈ st.sightings, ∃ p ∈ st.plants, p.id = s.plant_id

/-- Number of `plants` rows with a given key. -/
def keyCount (st : DbState) (k : String) : Nat :=
  st.plants.countP fun r => r.key == k

/-- The `plants.key` uniqueness invariant. -/
def plantsWf (st : DbState) : Prop :=
  ∀ k, keyCount st k ≤ 1

/-- The varying inputs of one successful identification run. -/
structure RunInput where
  b : ReqBody
  u : String
  best : Option BestMatch
  now : Nat

/-- Database effect of a sequence of successful identification runs. -/
def runFlows (st : DbState) (runs : List RunInput) : DbState :=
  runs.foldl (fun s r => (identifyDbStep s noFailOracle r.now r.b r.u r.best).2) st

/-- A sample `trees` row used by concrete witnesses. -/
def sampleOak : TreeRow :=
  { id := 1, created_at := 10, image_path := none, image_url := none,
    lat := none, lng := none, identified_name := some "Oak",
    scientific_name := some "quercus", genus := none, family := none,
    common_names := none, gbif_id := none, powo_id := none,
    iucn_category := none, confidence := none, features := none }

/-- A later sighting of the same species, used by concrete witnesses. -/
def sampleOakLater : TreeRow :=
  { sampleOak with id := 2, created_at := 20 }

/-! ### Proofs -/

/-! Basic facts about the string primitives. -/

theorem isSlugChar_not_ws {c : Char} (h : isSlugChar c = true) :
    isWsChar c = false := by
  simp only [isSlugChar, Bool.or_eq_true, Bool.and_eq_true, decide_eq_true_eq,
    beq_iff_eq] at h
  simp only [isWsChar, Bool.or_eq_false_iff, beq_eq_false_iff_ne, ne_eq]
  omega

theorem toLowerChar_fixed {c : Char} (h : isSlugChar c = true) :
    toLowerChar c = c := by
  simp only [isSlugChar, Bool.or_eq_true, Bool.and_eq_true, decide_eq_true_eq,
    beq_iff_eq] at h
  unfold toLowerChar
  have : (65 ≤ c.toNat && c.toNat ≤ 90) = false := by
    simp only [Bool.and_eq_false_iff, decide_eq_false_iff_not, not_le]
    omega
  rw [this]
  simp

theorem dropWhile_eq_self_of_no_ws {l : List Char}
    (h : ∀ c ∈ l, isSlugChar c = true) : l.dropWhile isWsChar = l := by
  cases l with
  | nil => rfl
  | cons c rest =>
    rw [List.dropWhile_cons_of_neg]
    simp [isSlugChar_not_ws (h c (by simp))]

theorem trimChars_eq_self {l : List Char}
    (h : ∀ c ∈ l, isSlugChar c = true) : trimChars l = l := by
  unfold trimChars
  rw [dropWhile_eq_self_of_no_ws h, dropWhile_eq_self_of_no_ws, List.reverse_reverse]
  intro c hc
  exact h c (by simpa using hc)

theorem collapseWsAux_eq_self {l : List Char} (b : Bool)
    (h : ∀ c ∈ l, isSlugChar c = true) : collapseWsAux b l = l := by
  induction l generalizing b with
  | nil => rfl
  | cons c rest ih =>
    unfold collapseWsAux
    rw [if_neg]
    · rw [ih false (fun x hx => h x (by simp [hx]))]
    · simp [isSlugChar_not_ws (h c (by simp))]

theorem filter_slug_eq_self {l : List Char}
    (h : ∀ c ∈ l, isSlugChar c = true) : l.filter isSlugChar = l :=
  List.filter_eq_self.mpr h

theorem map_toLowerChar_eq_self {l : List Char}
    (h : ∀ c ∈ l, isSlugChar c = true) : l.map toLowerChar = l := by
  conv_rhs => rw [← List.map_id l]
  exact List.map_congr_left (fun c hc => toLowerChar_fixed (h c hc))

/-- Every character of a slugified string is in `[a-z0-9-]`. -/
theorem slugifyKey_chars (s : String) :
    ∀ c ∈ (slugifyKey s).data, isSlugChar c = true := by
  intro c hc
  unfold slugifyKey at hc
  simp only [String.data] at hc
  exact List.of_mem_filter hc

/-- The function `slugifyKey` fixes strings made only of `[a-z0-9-]` characters. -/
theorem slugifyKey_fixed {s : String}
    (h : ∀ c ∈ s.data, isSlugChar c = true) : slugifyKey s = s := by
  unfold slugifyKey collapseWs
  rw [map_toLowerChar_eq_self h, trimChars_eq_self h, collapseWsAux_eq_self false h,
    filter_slug_eq_self h]



theorem stringMk_data (s : String) : String.mk s.data = s := rfl

theorem plantKeyLcOf_slug (s : String) : plantKeyLcOf (slugifyKey s) = slugifyKey s := by
  have h := slugifyKey_chars s
  unfold plantKeyLcOf collapseWs
  rw [trimChars_eq_self h, map_toLowerChar_eq_self h, collapseWsAux_eq_self false h,
    stringMk_data]

theorem toLowerStr_slug (s : String) : toLowerStr (slugifyKey s) = slugifyKey s := by
  unfold toLowerStr
  rw [map_toLowerChar_eq_self (slugifyKey_chars s), stringMk_data]

theorem plantsUpsert_sightings (st : DbState) (p : PlantPayload) :
    (plantsUpsert st p).1.sightings = st.sightings := by
  unfold plantsUpsert
  cases st.plants.find? (fun r => r.key == p.key) <;> rfl

theorem plantsUpsert_mem (st : DbState) (p : PlantPayload) :
    ∃ row ∈ (plantsUpsert st p).1.plants,
      row.id = (plantsUpsert st p).2 ∧ row.key = p.key := by
  unfold plantsUpsert
  cases hf : st.plants.find? (fun r => r.key == p.key) with
  | none => exact ⟨freshPlantRow st.nextPlantId p, by simp, rfl, rfl⟩
  | some r =>
    have hmem := List.mem_of_find?_eq_some hf
    have hkey : (r.key == p.key) = true := by
      have h2 := List.find?_some hf
      simpa using h2
    refine ⟨applyPayload r p, ?_, rfl, rfl⟩
    have himg : (fun q => if q.key == p.key then applyPayload q p else q) r
        = applyPayload r p := by simp [hkey]
    exact himg ▸ List.mem_map_of_mem _ hmem

theorem plantsUpsert_preserves (st : DbState) (p : PlantPayload) :
    ∀ q ∈ st.plants, ∃ q' ∈ (plantsUpsert st p).1.plants, q'.id = q.id := by
  intro q hq
  unfold plantsUpsert
  cases hf : st.plants.find? (fun r => r.key == p.key) with
  | none => exact ⟨q, by simp [hq], rfl⟩
  | some r =>
    by_cases hk : (q.key == p.key) = true
    · refine ⟨applyPayload q p, ?_, rfl⟩
      have himg : (fun x => if x.key == p.key then applyPayload x p else x) q
          = applyPayload q p := by simp [hk]
      exact himg ▸ List.mem_map_of_mem _ hq
    · refine ⟨q, ?_, rfl⟩
      have himg : (fun x => if x.key == p.key then applyPayload x p else x) q = q := by
        simp [hk]
      exact himg ▸ List.mem_map_of_mem _ hq


theorem sightingsInsert_plants (st : DbState) (pid : Nat) (u : String)
    (lat lng conf : Option Rat) (now : Nat) :
    (sightingsInsert st pid u lat lng conf now).1.plants = st.plants := rfl

theorem identifyDbStep_success {st st' : DbState} {oracle : Oracle} {now : Nat}
    {b : ReqBody} {u : String} {best : Option BestMatch} {p : SuccessPayload}
    (h : identifyDbStep st oracle now b u best = (.success p, st')) :
    p.key = plantKeyOf best ∧ p.rawTop = best ∧
      ∃ row ∈ st'.plants, row.key = p.key := by
  obtain ⟨o1, o2, o3⟩ := oracle
  unfold identifyDbStep at h
  cases o2 with
  | true => simp at h
  | false =>
    cases o3 with
    | true => simp at h
    | false =>
      rw [Prod.mk.injEq] at h
      obtain ⟨h1, h2⟩ := h
      injection h1 with h1
      subst h1
      refine ⟨rfl, rfl, ?_⟩
      rw [← h2]
      simp only [sightingsInsert_plants]
      obtain ⟨row, hm, hid, hk⟩ := plantsUpsert_mem _ _
      exact ⟨row, hm, hk⟩


theorem identify_success_dbStep {st st' : DbState} {oracle : Oracle} {now : Nat}
    {method : String} {body : Option ReqBody} {hasApiKey : Bool}
    {img : FetchOutcome} {pn : PNOutcome} {p : SuccessPayload}
    (h : identify st oracle now method body hasApiKey img pn = (.success p, st')) :
    ∃ b u best, identifyDbStep st oracle now b u best = (.success p, st') := by
  unfold identify at h
  repeat' first
  | (simp at h; done)
  | split at h
  exact ⟨_, _, _, h⟩


theorem identify_reduce (st : DbState) (oracle : Oracle) (now : Nat)
    (lat lng : Option Rat) (organ : Option String) (u : String)
    (img : FetchOutcome) (pn : PNOutcome)
    (hne : ¬ u = "") (horg : effectiveOrgan organ ∈ validOrgans) :
    identify st oracle now "POST"
        (some { imageUrl := some u, lat := lat, lng := lng, organ := organ })
        true img pn =
      match img with
      | .timeout => (.imageTimeout, st)
      | .netError => (.unexpectedError, st)
      | .resp s =>
        if ¬ statusOk s then (.imageFetchFailed s, st)
        else
          match pn with
          | .timeout => (.plantNetTimeout, st)
          | .netError => (.unexpectedError, st)
          | .resp ps json =>
            let raw := json.getD ⟨none⟩
            if ¬ statusOk ps then (.plantNetFailed ps raw, st)
            else identifyDbStep st oracle now
              { imageUrl := some u, lat := lat, lng := lng, organ := organ }
              u (bestOf raw) := by
  simp only [identify, if_neg hne,
    if_neg (show ¬(effectiveOrgan organ ∉ validOrgans) from not_not_intro horg)]
  rw [if_neg (show ¬("POST" : String) = "OPTIONS" by decide),
    if_neg (show ¬("POST" : String) ≠ "POST" by decide),
    if_neg (show ¬¬True from not_not_intro trivial)]


/-- C10: `slugifyKey` is idempotent, and both `key_lc` computations the
handler applies to `plantKey` (trim + lowercase + whitespace-to-hyphen,
and plain lowercase) return `plantKey` unchanged, so `key` and `key_lc`
coincide for every `plants` row the handler writes. -/
theorem slugifyKey_idempotent_key_lc (s : String) :
    slugifyKey (slugifyKey s) = slugifyKey s ∧
    plantKeyLcOf (slugifyKey s) = slugifyKey s ∧
    toLowerStr (slugifyKey s) = slugifyKey s :=
  ⟨slugifyKey_fixed (slugifyKey_chars s), plantKeyLcOf_slug s, toLowerStr_slug s⟩

/-- C1: every successful identification derives its plant key by
slugifying the raw key of the best match (`scientificNameWithoutAuthor`,
then `scientificName`, then the common name), and that same key is both
the key of a `plants` row in the final database state and the `key`
field returned to the client. -/
theorem identify_key_canonical {st st' : DbState} {oracle : Oracle} {now : Nat}
    {method : String} {body : Option ReqBody} {hasApiKey : Bool}
    {img : FetchOutcome} {pn : PNOutcome} {p : SuccessPayload}
    (h : identify st oracle now method body hasApiKey img pn = (.success p, st')) :
    ∃ best, p.rawTop = best ∧ p.key = slugifyKey (rawKeyOf best) ∧
      ∃ row ∈ st'.plants, row.key = p.key := by
  obtain ⟨b, u, best, hdb⟩ := identify_success_dbStep h
  obtain ⟨hk, hraw, hrow⟩ := identifyDbStep_success hdb
  exact ⟨best, hraw, hk, hrow⟩

/-- Witness for C1 at a concrete successful run. -/
theorem identify_key_canonical_witness :
    ∃ p st', identify emptyDb noFailOracle 3 "POST"
        (some { imageUrl := some "http://img", lat := none, lng := none, organ := none })
        true (.resp 200) (.resp 200 (some { results := none })) = (.success p, st') ∧
      ∃ best, p.rawTop = best ∧ p.key = slugifyKey (rawKeyOf best) ∧
        ∃ row ∈ st'.plants, row.key = p.key := by
  obtain ⟨p, st', h⟩ :
      ∃ p st', identify emptyDb noFailOracle 3 "POST"
        (some { imageUrl := some "http://img", lat := none, lng := none, organ := none })
        true (.resp 200) (.resp 200 (some { results := none })) = (.success p, st') :=
    ⟨_, _, rfl⟩
  exact ⟨p, st', h, identify_key_canonical h⟩


theorem identifyDbStep_fst_ne_invalidOrgan (st : DbState) (oracle : Oracle)
    (now : Nat) (b : ReqBody) (u : String) (best : Option BestMatch)
    (v : List String) :
    (identifyDbStep st oracle now b u best).1 ≠ .invalidOrgan v := by
  unfold identifyDbStep
  split <;> split <;> (try split) <;> simp

theorem identify_invalid_organ (st : DbState) (oracle : Oracle) (now : Nat)
    (lat lng : Option Rat) (u s : String) (img : FetchOutcome) (pn : PNOutcome)
    (hne : ¬ u = "") (hs : s ≠ "") (hnv : s ∉ validOrgans) :
    identify st oracle now "POST"
        (some { imageUrl := some u, lat := lat, lng := lng, organ := some s })
        true img pn = (.invalidOrgan validOrgans, st) := by
  have heff : effectiveOrgan (some s) = s := by simp [effectiveOrgan, hs]
  simp only [identify, if_neg hne, heff, if_pos hnv]
  rw [if_neg (show ¬("POST" : String) = "OPTIONS" by decide),
    if_neg (show ¬("POST" : String) ≠ "POST" by decide),
    if_neg (show ¬¬True from not_not_intro trivial)]

/-- C6 counterexample: the request organ `"auto"` is a string naming
something other than leaf, flower, fruit or bark, yet the handler does
not reject it with a 400 — it proceeds to the image fetch (here a
timeout, status 408). -/
theorem organ_auto_not_rejected :
    ("auto" ∉ ["leaf", "flower", "fruit", "bark"]) ∧
    identify emptyDb noFailOracle 0 "POST"
        (some { imageUrl := some "http://img", lat := none, lng := none,
                organ := some "auto" })
        true FetchOutcome.timeout PNOutcome.timeout
      = (HandlerResp.imageTimeout, emptyDb) ∧
    statusCodeOf HandlerResp.imageTimeout ≠ 400 := by
  exact ⟨by decide, by decide, by decide⟩

/-- C6 (amended): the valid organ values are leaf, flower, fruit, bark
and auto; a request whose organ is a non-empty string outside these
five is rejected with a 400 error listing them, and a request that
omits the organ field proceeds using organ "leaf" and is never
rejected for its organ. -/
theorem organ_validation (st : DbState) (oracle : Oracle) (now : Nat)
    (lat lng : Option Rat) (u : String) (img : FetchOutcome) (pn : PNOutcome)
    (hne : u ≠ "") :
    (∀ s, s ≠ "" → s ∉ validOrgans →
      identify st oracle now "POST"
          (some { imageUrl := some u, lat := lat, lng := lng, organ := some s })
          true img pn = (.invalidOrgan validOrgans, st)) ∧
    statusCodeOf (.invalidOrgan validOrgans) = 400 ∧
    errorMsgOf (.invalidOrgan validOrgans)
      = some "Invalid organ type. Must be one of: leaf, flower, fruit, bark, auto" ∧
    validOrgans = ["leaf", "flower", "fruit", "bark", "auto"] ∧
    effectiveOrgan none = "leaf" ∧
    (∀ v, (identify st oracle now "POST"
        (some { imageUrl := some u, lat := lat, lng := lng, organ := none })
        true img pn).1 ≠ .invalidOrgan v) := by
  refine ⟨fun s hs hnv => identify_invalid_organ st oracle now lat lng u s img pn hne hs hnv,
    rfl, rfl, rfl, rfl, ?_⟩
  intro v
  rw [identify_reduce st oracle now lat lng none u img pn hne (by decide)]
  split
  · simp
  · simp
  · split
    · simp
    · split
      · simp
      · simp
      · split
        · simp
        · exact identifyDbStep_fst_ne_invalidOrgan st oracle now _ u _ v

/-- Witness for C6 (amended) at a concrete rejected organ. -/
theorem organ_validation_witness :
    identify emptyDb noFailOracle 0 "POST"
        (some { imageUrl := some "http://img", lat := none, lng := none,
                organ := some "stem" })
        true FetchOutcome.timeout PNOutcome.timeout
      = (.invalidOrgan validOrgans, emptyDb) :=
  (organ_validation emptyDb noFailOracle 0 none none "http://img"
    FetchOutcome.timeout PNOutcome.timeout (by decide)).1 "stem" (by decide) (by decide)


/-- C7: the image fetch is aborted after `imageFetchTimeoutMs` ms
(15 s) and the PlantNet call after `plantNetTimeoutMs` ms (30 s); each
abort yields a 408 response with a descriptive message; a non-ok image
fetch yields a 400 response; a non-ok PlantNet response yields a 502
response carrying PlantNet's status and parsed body. -/
theorem fetch_timeout_statuses (st : DbState) (oracle : Oracle) (now : Nat)
    (lat lng : Option Rat) (organ : Option String) (u : String)
    (hne : u ≠ "") (horg : effectiveOrgan organ ∈ validOrgans) :
    imageFetchTimeoutMs = 15000 ∧ plantNetTimeoutMs = 30000 ∧
    (∀ pn, identify st oracle now "POST"
        (some { imageUrl := some u, lat := lat, lng := lng, organ := organ })
        true .timeout pn = (.imageTimeout, st)) ∧
    statusCodeOf .imageTimeout = 408 ∧
    errorMsgOf .imageTimeout = some "Image fetch timeout after 15 seconds" ∧
    (∀ s, statusOk s = true → identify st oracle now "POST"
        (some { imageUrl := some u, lat := lat, lng := lng, organ := organ })
        true (.resp s) .timeout = (.plantNetTimeout, st)) ∧
    statusCodeOf .plantNetTimeout = 408 ∧
    errorMsgOf .plantNetTimeout = some "PlantNet API timeout after 30 seconds" ∧
    (∀ s pn, statusOk s = false → identify st oracle now "POST"
        (some { imageUrl := some u, lat := lat, lng := lng, organ := organ })
        true (.resp s) pn = (.imageFetchFailed s, st)) ∧
    (∀ s, statusCodeOf (.imageFetchFailed s) = 400) ∧
    (∀ s ps json, statusOk s = true → statusOk ps = false →
      identify st oracle now "POST"
        (some { imageUrl := some u, lat := lat, lng := lng, organ := organ })
        true (.resp s) (.resp ps json)
        = (.plantNetFailed ps (json.getD ⟨none⟩), st)) ∧
    (∀ ps raw, statusCodeOf (.plantNetFailed ps raw) = 502) := by
  refine ⟨rfl, rfl, ?_, rfl, rfl, ?_, rfl, rfl, ?_, fun s => rfl, ?_, fun ps raw => rfl⟩
  · intro pn
    rw [identify_reduce st oracle now lat lng organ u .timeout pn hne horg]
  · intro s hs
    rw [identify_reduce st oracle now lat lng organ u (.resp s) .timeout hne horg]
    simp [hs]
  · intro s pn hs
    rw [identify_reduce st oracle now lat lng organ u (.resp s) pn hne horg]
    simp [hs]
  · intro s ps json hs hps
    rw [identify_reduce st oracle now lat lng organ u (.resp s) (.resp ps json) hne horg]
    simp [hs, hps]

/-- Witness for C7 at concrete runs. -/
theorem fetch_timeout_statuses_witness :
    identify emptyDb noFailOracle 0 "POST"
        (some { imageUrl := some "http://img", lat := none, lng := none, organ := none })
        true .timeout .timeout = (.imageTimeout, emptyDb) ∧
    identify emptyDb noFailOracle 0 "POST"
        (some { imageUrl := some "http://img", lat := none, lng := none, organ := none })
        true (.resp 200) .timeout = (.plantNetTimeout, emptyDb) ∧
    identify emptyDb noFailOracle 0 "POST"
        (some { imageUrl := some "http://img", lat := none, lng := none, organ := none })
        true (.resp 404) .timeout = (.imageFetchFailed 404, emptyDb) ∧
    identify emptyDb noFailOracle 0 "POST"
        (some { imageUrl := some "http://img", lat := none, lng := none, organ := none })
        true (.resp 200) (.resp 500 (some ⟨none⟩))
      = (.plantNetFailed 500 ⟨none⟩, emptyDb) := by
  have h := fetch_timeout_statuses emptyDb noFailOracle 0 none none none "http://img"
    (by decide) (by decide)
  refine ⟨h.2.2.1 .timeout, h.2.2.2.2.2.1 200 (by decide),
    h.2.2.2.2.2.2.2.2.1 404 .timeout (by decide), ?_⟩
  simpa using h.2.2.2.2.2.2.2.2.2.2.1 200 500 (some ⟨none⟩) (by decide) (by decide)


theorem sightingsInsert_sightings (st : DbState) (pid : Nat) (u : String)
    (lat lng conf : Option Rat) (now : Nat) :
    (sightingsInsert st pid u lat lng conf now).1.sightings =
      st.sightings ++
        [{ id := st.nextSightingId, plant_id := pid, image_url := u,
           lat := lat, lng := lng, confidence := conf, created_at := now }] := rfl

theorem identifyDbStep_noFail_writes (st : DbState) (now : Nat) (b : ReqBody)
    (u : String) (best : Option BestMatch) :
    ∃ p st', identifyDbStep st noFailOracle now b u best = (.success p, st') ∧
      p.name = commonNameOf best ∧ p.scientificName = scientificNameOf best ∧
      p.family = familyOf best ∧ p.genus = genusOf best ∧
      p.confidence = confidenceOf best ∧ p.referenceImages = referenceImagesOf best ∧
      p.key = plantKeyOf best ∧
      ∃ row ∈ st'.plants, row.key = plantKeyOf best ∧
        ∃ srow, st'.sightings = st.sightings ++ [srow] ∧ srow.plant_id = row.id := by
  unfold identifyDbStep
  simp only [noFailOracle, Bool.false_eq_true, if_false]
  refine ⟨_, _, rfl, rfl, rfl, rfl, rfl, rfl, rfl, rfl, ?_⟩
  simp only [sightingsInsert_plants, sightingsInsert_sightings]
  rw [plantsUpsert_sightings, plantsUpsert_sightings]
  obtain ⟨row, hmem, hid2, hkey⟩ := plantsUpsert_mem _ _
  exact ⟨row, hmem, hkey, _, rfl, hid2.symm⟩


/-- C9: when the PlantNet body parses but its `results` array is empty
or missing, the handler still succeeds: the returned name is
"Unknown", scientific name, family, genus and confidence are null, the
reference images are empty, the plant key is "unknown", and a `plants`
row under that key and a `sightings` row pointing at it are still
written. -/
theorem identify_empty_results (st : DbState) (now : Nat)
    (lat lng : Option Rat) (organ : Option String) (u : String) (s ps : Nat)
    (raw : PlantNetRaw)
    (hne : u ≠ "") (horg : effectiveOrgan organ ∈ validOrgans)
    (hs : statusOk s = true) (hps : statusOk ps = true)
    (hraw : raw.results = none ∨ raw.results = some []) :
    ∃ p st', identify st noFailOracle now "POST"
        (some { imageUrl := some u, lat := lat, lng := lng, organ := organ })
        true (.resp s) (.resp ps (some raw)) = (.success p, st') ∧
      p.name = "Unknown" ∧ p.scientificName = none ∧ p.family = none ∧
      p.genus = none ∧ p.confidence = none ∧ p.referenceImages = [] ∧
      p.key = "unknown" ∧
      ∃ row ∈ st'.plants, row.key = "unknown" ∧
        ∃ srow, st'.sightings = st.sightings ++ [srow] ∧
          srow.plant_id = row.id := by
  have hbest : bestOf raw = none := by
    rcases hraw with h | h <;> simp [bestOf, h]
  have hred : identify st noFailOracle now "POST"
      (some { imageUrl := some u, lat := lat, lng := lng, organ := organ })
      true (.resp s) (.resp ps (some raw))
      = identifyDbStep st noFailOracle now
          { imageUrl := some u, lat := lat, lng := lng, organ := organ } u none := by
    rw [identify_reduce st noFailOracle now lat lng organ u (.resp s)
      (.resp ps (some raw)) hne horg]
    simp [hs, hps, hbest]
  obtain ⟨p, st', heq, h1, h2, h3, h4, h5, h6, h7, hrow⟩ :=
    identifyDbStep_noFail_writes st now
      { imageUrl := some u, lat := lat, lng := lng, organ := organ } u none
  refine ⟨p, st', hred.trans heq, h1.trans (by decide), h2.trans (by decide),
    h3.trans (by decide), h4.trans (by decide), h5.trans (by decide),
    h6.trans (by decide), h7.trans (by decide), ?_⟩
  obtain ⟨row, hmem, hkey, hsrow⟩ := hrow
  exact ⟨row, hmem, hkey.trans (by decide), hsrow⟩

/-- Witness for C9 at a concrete empty-results run. -/
theorem identify_empty_results_witness :
    ∃ p st', identify emptyDb noFailOracle 7 "POST"
        (some { imageUrl := some "http://img", lat := none, lng := none, organ := none })
        true (.resp 200) (.resp 200 (some { results := some [] })) = (.success p, st') ∧
      p.name = "Unknown" ∧ p.scientificName = none ∧ p.family = none ∧
      p.genus = none ∧ p.confidence = none ∧ p.referenceImages = [] ∧
      p.key = "unknown" ∧
      ∃ row ∈ st'.plants, row.key = "unknown" ∧
        ∃ srow, st'.sightings = emptyDb.sightings ++ [srow] ∧
          srow.plant_id = row.id :=
  identify_empty_results emptyDb 7 none none none "http://img" 200 200
    { results := some [] } (by decide) (by decide) (by decide) (by decide)
    (Or.inr rfl)


/-- C8: the `trees` table is append-only — under the repertoire of
operations the repository performs on it (inserts from the legacy
handlers, reads from the log pages), any sequence of operations leaves
every previously inserted row in place, unchanged, in order. -/
theorem trees_append_only (init : List TreeRow) (ops : List TreesOp) :
    (∃ tail, applyTreesOps init ops = init ++ tail) ∧
    ∀ r ∈ init, r ∈ applyTreesOps init ops := by
  have main : ∀ ops init, ∃ tail, applyTreesOps init ops = init ++ tail := by
    intro ops
    induction ops with
    | nil => exact fun init => ⟨[], (List.append_nil init).symm⟩
    | cons op rest ih =>
      intro init
      obtain ⟨tail, ht⟩ := ih (applyTreesOp init op)
      cases op with
      | insert r =>
        refine ⟨r :: tail, ?_⟩
        show applyTreesOps (init ++ [r]) rest = init ++ r :: tail
        rw [show applyTreesOp init (.insert r) = init ++ [r] from rfl] at ht
        rw [ht, List.append_assoc]
        rfl
      | select => exact ⟨tail, ht⟩
  obtain ⟨tail, ht⟩ := main ops init
  refine ⟨⟨tail, ht⟩, fun r hr => ?_⟩
  rw [ht]
  exact List.mem_append_left _ hr

/-- C5: a `tree_entries` row is created lazily on first view — when no
row exists for the key, the detail page inserts one whose display name
is the log row's name (or null) and whose notes are null, and an
existing row is returned untouched — and `save` upserts by key: the
row for the key ends with the trimmed display name and notes, null
when the trimmed value is empty, with no duplicate row created and
other keys untouched. -/
theorem tree_entries_lazy_create_save (es : List TreeEntry) (k : String)
    (logName : Option String) (now : Nat) (displayName notes : String) :
    (findEntry es k = none →
      (loadEntryStep es k logName now).1 =
        es ++ [{ key := k, display_name := logName, notes := none,
                 created_at := now, updated_at := none }] ∧
      (loadEntryStep es k logName now).2 =
        { key := k, display_name := logName, notes := none,
          created_at := now, updated_at := none }) ∧
    (∀ e, findEntry es k = some e → loadEntryStep es k logName now = (es, e)) ∧
    (∃ e ∈ saveEntryStep es k displayName notes now, e.key = k ∧
      e.display_name = (if trimStr displayName = "" then none
        else some (trimStr displayName)) ∧
      e.notes = (if trimStr notes = "" then none else some (trimStr notes))) ∧
    (findEntry es k ≠ none →
      (saveEntryStep es k displayName notes now).length = es.length) ∧
    (∀ e ∈ es, e.key ≠ k → e ∈ saveEntryStep es k displayName notes now) := by
  refine ⟨fun h => ?_, fun e he => ?_, ?_, fun h => ?_, fun e he hk => ?_⟩
  · simp [loadEntryStep, h]
  · simp [loadEntryStep, he]
  · cases hf : findEntry es k with
    | none =>
      simp only [saveEntryStep, hf]
      exact ⟨_, List.mem_append_right _ (List.mem_singleton_self _), rfl, rfl, rfl⟩
    | some e0 =>
      have hmem := List.mem_of_find?_eq_some hf
      have hkey : (e0.key == k) = true := by
        have h2 := List.find?_some hf
        simpa using h2
      have hkeq : e0.key = k := by simpa using hkey
      simp only [saveEntryStep, hf]
      refine ⟨_, List.mem_map_of_mem _ hmem, ?_, ?_, ?_⟩ <;> simp [hkey, hkeq]
  · cases hf : findEntry es k with
    | none => exact absurd hf h
    | some e0 => simp [saveEntryStep, hf]
  · cases hf : findEntry es k with
    | none =>
      simp only [saveEntryStep, hf]
      exact List.mem_append_left _ he
    | some e0 =>
      have hbeq : (e.key == k) = false := by simpa using hk
      simp only [saveEntryStep, hf]
      exact List.mem_map.mpr ⟨e, he, by simp [hbeq]⟩

/-- Witness for C5 at concrete inputs. -/
theorem tree_entries_lazy_create_save_witness :
    (loadEntryStep [] "oak" (some "Oak") 5).1 =
      [{ key := "oak", display_name := some "Oak", notes := none,
         created_at := 5, updated_at := none }] ∧
    ∃ e ∈ saveEntryStep [] "oak" "  Big Oak  " "" 5, e.key = "oak" ∧
      e.display_name = some "Big Oak" ∧ e.notes = none := by
  have h := tree_entries_lazy_create_save [] "oak" (some "Oak") 5 "  Big Oak  " ""
  refine ⟨(h.1 rfl).1, ?_⟩
  obtain ⟨e, hm, hk, hd, hn⟩ := h.2.2.1
  exact ⟨e, hm, hk, hd.trans (by decide), hn.trans (by decide)⟩


theorem identifyDbStep_inv (st : DbState) (oracle : Oracle) (now : Nat)
    (b : ReqBody) (u : String) (best : Option BestMatch)
    (hinv : sightingsRefPlants st) :
    sightingsRefPlants (identifyDbStep st oracle now b u best).2 := by
  unfold identifyDbStep
  split
  · split
    · exact hinv
    · split
      · intro s hs
        rw [plantsUpsert_sightings] at hs
        obtain ⟨p0, hp0, hid⟩ := hinv s hs
        obtain ⟨q2, hq2, hqid2⟩ := plantsUpsert_preserves _ _ p0 hp0
        exact ⟨q2, hq2, hqid2.trans hid⟩
      · intro s hs
        rw [sightingsInsert_sightings, plantsUpsert_sightings,
          List.mem_append] at hs
        simp only [sightingsInsert_plants]
        rcases hs with hs | hs
        · obtain ⟨p0, hp0, hid⟩ := hinv s hs
          obtain ⟨q2, hq2, hqid2⟩ := plantsUpsert_preserves _ _ p0 hp0
          exact ⟨q2, hq2, hqid2.trans hid⟩
        · rw [List.mem_singleton] at hs
          subst hs
          obtain ⟨prow, hm, hid, hk⟩ := plantsUpsert_mem _ _
          exact ⟨prow, hm, hid⟩
  · split
    · intro s hs
      rw [plantsUpsert_sightings] at hs
      obtain ⟨p0, hp0, hid⟩ := hinv s hs
      obtain ⟨q2, hq2, hqid2⟩ := plantsUpsert_preserves _ _ p0 hp0
      exact ⟨q2, hq2, hqid2.trans hid⟩
    · split
      · intro s hs
        rw [plantsUpsert_sightings, plantsUpsert_sightings] at hs
        obtain ⟨p0, hp0, hid⟩ := hinv s hs
        obtain ⟨q1, hq1, hqid1⟩ := plantsUpsert_preserves _ _ p0 hp0
        obtain ⟨q2, hq2, hqid2⟩ := plantsUpsert_preserves _ _ q1 hq1
        exact ⟨q2, hq2, by rw [hqid2, hqid1, hid]⟩
      · intro s hs
        rw [sightingsInsert_sightings, plantsUpsert_sightings,
          plantsUpsert_sightings, List.mem_append] at hs
        simp only [sightingsInsert_plants]
        rcases hs with hs | hs
        · obtain ⟨p0, hp0, hid⟩ := hinv s hs
          obtain ⟨q1, hq1, hqid1⟩ := plantsUpsert_preserves _ _ p0 hp0
          obtain ⟨q2, hq2, hqid2⟩ := plantsUpsert_preserves _ _ q1 hq1
          exact ⟨q2, hq2, by rw [hqid2, hqid1, hid]⟩
        · rw [List.mem_singleton] at hs
          subst hs
          obtain ⟨prow, hm, hid, hk⟩ := plantsUpsert_mem _ _
          exact ⟨prow, hm, hid⟩

/-- C4: every sighting inserted by the handler carries the id returned
by the immediately preceding `plants` upsert of the run's key — when
that upsert fails no sighting is inserted — and the invariant that
every `sightings.plant_id` references an existing `plants.id` is
preserved by every run of the handler. -/
theorem sightings_reference_plants (st : DbState) (oracle : Oracle) (now : Nat)
    (method : String) (body : Option ReqBody) (hasApiKey : Bool)
    (img : FetchOutcome) (pn : PNOutcome)
    (hinv : sightingsRefPlants st) :
    sightingsRefPlants (identify st oracle now method body hasApiKey img pn).2 ∧
    (∀ b u best,
      (identifyDbStep st oracle now b u best).2.sightings = st.sightings ∨
      ∃ srow, (identifyDbStep st oracle now b u best).2.sightings
          = st.sightings ++ [srow] ∧
        ∃ prow ∈ (identifyDbStep st oracle now b u best).2.plants,
          prow.id = srow.plant_id ∧ prow.key = plantKeyOf best) ∧
    (∀ b u best, oracle.plantUpsertFails = true →
      (identifyDbStep st oracle now b u best).2.sightings = st.sightings) := by
  refine ⟨?_, ?_, ?_⟩
  · unfold identify
    repeat' first
    | exact hinv
    | exact identifyDbStep_inv _ _ _ _ _ _ hinv
    | split
  · intro b u best
    unfold identifyDbStep
    split
    · split
      · exact Or.inl rfl
      · split
        · exact Or.inl (plantsUpsert_sightings _ _)
        · right
          simp only [sightingsInsert_sightings, sightingsInsert_plants]
          rw [plantsUpsert_sightings]
          obtain ⟨prow, hm, hid, hk⟩ := plantsUpsert_mem _ _
          exact ⟨_, rfl, prow, hm, hid, hk⟩
    · split
      · exact Or.inl (plantsUpsert_sightings _ _)
      · split
        · exact Or.inl ((plantsUpsert_sightings _ _).trans (plantsUpsert_sightings _ _))
        · right
          simp only [sightingsInsert_sightings, sightingsInsert_plants]
          rw [plantsUpsert_sightings, plantsUpsert_sightings]
          obtain ⟨prow, hm, hid, hk⟩ := plantsUpsert_mem _ _
          exact ⟨_, rfl, prow, hm, hid, hk⟩
  · intro b u best hfail
    unfold identifyDbStep
    split
    · rfl
    · exact plantsUpsert_sightings _ _

/-- Witness for C4 at a concrete run from the empty database. -/
theorem sightings_reference_plants_witness :
    sightingsRefPlants (identify emptyDb noFailOracle 0 "POST"
      (some { imageUrl := some "http://img", lat := none, lng := none, organ := none })
      true (.resp 200) (.resp 200 (some { results := none }))).2 :=
  (sightings_reference_plants emptyDb noFailOracle 0 "POST"
    (some { imageUrl := some "http://img", lat := none, lng := none, organ := none })
    true (.resp 200) (.resp 200 (some { results := none }))
    (fun s hs => absurd hs (List.not_mem_nil s))).1


theorem maxByCreated_mem (r : TreeRow) (rs : List TreeRow) :
    maxByCreated r rs ∈ r :: rs := by
  induction rs generalizing r with
  | nil => simp [maxByCreated]
  | cons x xs ih =>
    show maxByCreated (if r.created_at < x.created_at then x else r) xs ∈ r :: x :: xs
    by_cases hc : r.created_at < x.created_at
    · rw [if_pos hc]
      exact List.mem_cons_of_mem r (ih x)
    · rw [if_neg hc]
      rcases List.mem_cons.mp (ih r) with h | h
      · rw [h]
        exact List.mem_cons_self r _
      · exact List.mem_cons_of_mem _ (List.mem_cons_of_mem _ h)

theorem maxByCreated_ge (r : TreeRow) (rs : List TreeRow) :
    ∀ y ∈ r :: rs, y.created_at ≤ (maxByCreated r rs).created_at := by
  induction rs generalizing r with
  | nil =>
    intro y hy
    rw [List.mem_singleton] at hy
    subst hy
    exact le_refl _
  | cons x xs ih =>
    intro y hy
    show y.created_at ≤ (maxByCreated (if r.created_at < x.created_at then x else r) xs).created_at
    have hR : r.created_at ≤ (if r.created_at < x.created_at then x else r).created_at := by
      by_cases hc : r.created_at < x.created_at
      · rw [if_pos hc]; omega
      · rw [if_neg hc]
    have hX : x.created_at ≤ (if r.created_at < x.created_at then x else r).created_at := by
      by_cases hc : r.created_at < x.created_at
      · rw [if_pos hc]
      · rw [if_neg hc]; omega
    have hHead := ih (if r.created_at < x.created_at then x else r) _
      (List.mem_cons_self _ _)
    rcases List.mem_cons.mp hy with h | h
    · subst h
      exact le_trans hR hHead
    · rcases List.mem_cons.mp h with h2 | h2
      · subst h2
        exact le_trans hX hHead
      · exact ih _ y (List.mem_cons_of_mem _ h2)

theorem countP_plantLog_names (trees : List TreeRow) (names : List String)
    (n : String) (hnd : names.Nodup)
    (hne : ∀ m ∈ names, ∃ row ∈ trees, row.scientific_name = some m) :
    ((names.filterMap fun m =>
        match rowsFor m trees with
        | [] => none
        | r :: rs => some (toLogRow (maxByCreated r rs))).countP
      fun l => l.scientific_name == some n) = if n ∈ names then 1 else 0 := by
  induction names with
  | nil => simp
  | cons m ms ih =>
    obtain ⟨hm, hms⟩ := List.nodup_cons.mp hnd
    have hcount := ih hms fun x hx => hne x (List.mem_cons_of_mem _ hx)
    rw [List.filterMap_cons]
    cases hrf : rowsFor m trees with
    | nil =>
      obtain ⟨row, hrow, hname⟩ := hne m (List.mem_cons_self _ _)
      have : row ∈ rowsFor m trees := List.mem_filter.mpr ⟨hrow, by simpa using hname⟩
      rw [hrf] at this
      exact absurd this (List.not_mem_nil row)
    | cons r rs =>
      have hsci : (toLogRow (maxByCreated r rs)).scientific_name = some m := by
        have hmem : maxByCreated r rs ∈ rowsFor m trees := by
          rw [hrf]; exact maxByCreated_mem r rs
        have h2 := (List.mem_filter.mp hmem).2
        simpa [toLogRow] using h2
      rw [List.countP_cons, hcount]
      by_cases hmn : m = n
      · subst hmn
        rw [if_neg hm, if_pos (List.mem_cons_self _ _)]
        simp [hsci]
      · have : n ∈ m :: ms ↔ n ∈ ms := by
          constructor
          · intro h
            rcases List.mem_cons.mp h with h | h
            · exact absurd h.symm hmn
            · exact h
          · exact List.mem_cons_of_mem _
        rw [if_congr this rfl rfl]
        have : ((toLogRow (maxByCreated r rs)).scientific_name == some n) = false := by
          rw [hsci]
          simpa using hmn
        simp [this]

/-- C2: for every state of `trees`, the `plant_log` view has exactly
one row per distinct non-null scientific name; that row is the
projection of a `trees` row of that species whose `created_at` is
maximal among the species' rows, and its `last_seen` equals that row's
`created_at`. -/
theorem plant_log_dedup (trees : List TreeRow) :
    (∀ n : String,
      ((plantLog trees).countP fun l => l.scientific_name == some n)
        = if ∃ row ∈ trees, row.scientific_name = some n then 1 else 0) ∧
    ∀ l ∈ plantLog trees, ∃ row ∈ trees,
      row.scientific_name.isSome ∧ row.scientific_name = l.scientific_name ∧
      l = toLogRow row ∧ l.last_seen = row.created_at ∧
      ∀ row' ∈ trees, row'.scientific_name = row.scientific_name →
        row'.created_at ≤ row.created_at := by
  constructor
  · intro n
    have hiff : n ∈ dedupNames trees ↔ ∃ row ∈ trees, row.scientific_name = some n := by
      unfold dedupNames
      rw [List.mem_dedup, List.mem_filterMap]
    rw [plantLog, countP_plantLog_names trees (dedupNames trees) n
      (List.nodup_dedup _) (fun m hm => (by
        unfold dedupNames at hm
        rw [List.mem_dedup, List.mem_filterMap] at hm
        exact hm))]
    exact if_congr hiff rfl rfl
  · intro l hl
    unfold plantLog at hl
    rw [List.mem_filterMap] at hl
    obtain ⟨n, hn, hgn⟩ := hl
    cases hrf : rowsFor n trees with
    | nil => rw [hrf] at hgn; exact absurd hgn (by simp)
    | cons r rs =>
      rw [hrf] at hgn
      have hleq : l = toLogRow (maxByCreated r rs) := by
        have := Option.some.inj hgn
        exact this.symm
      have hmem : maxByCreated r rs ∈ rowsFor n trees := by
        rw [hrf]; exact maxByCreated_mem r rs
      have hm2 := List.mem_filter.mp hmem
      have hname : (maxByCreated r rs).scientific_name = some n := by
        simpa using hm2.2
      refine ⟨maxByCreated r rs, hm2.1, by simp [hname], by simp [hleq, toLogRow],
        hleq, by simp [hleq, toLogRow], ?_⟩
      intro row' hrow' hname'
      have hrmem : row' ∈ rowsFor n trees := by
        refine List.mem_filter.mpr ⟨hrow', ?_⟩
        rw [hname] at hname'
        simpa using hname'
      rw [hrf] at hrmem
      exact maxByCreated_ge r rs row' hrmem


theorem keyCount_upsert (st : DbState) (p : PlantPayload) (k : String) :
    keyCount (plantsUpsert st p).1 k =
      match st.plants.find? (fun r => r.key == p.key) with
      | some _ => keyCount st k
      | none => keyCount st k + if p.key = k then 1 else 0 := by
  unfold plantsUpsert keyCount
  cases hf : st.plants.find? (fun r => r.key == p.key) with
  | none =>
    simp only [hf, List.countP_append, List.countP_cons, freshPlantRow,
      List.countP_nil]
    simp [beq_iff_eq]
  | some r =>
    simp only [hf]
    rw [List.countP_map]
    apply List.countP_congr
    intro q hq
    simp only [Function.comp_apply]
    by_cases hqk : (q.key == p.key) = true
    · rw [if_pos hqk]
      have hqe : q.key = p.key := by simpa using hqk
      rw [show (applyPayload q p).key = p.key from rfl, hqe]
    · rw [if_neg hqk]

theorem keyCount_zero_of_find_none (st : DbState) (p : PlantPayload)
    (hf : st.plants.find? (fun r => r.key == p.key) = none) :
    keyCount st p.key = 0 := by
  unfold keyCount
  rw [List.countP_eq_zero]
  intro q hq
  have := List.find?_eq_none.mp hf q hq
  simpa using this

theorem plantsWf_upsert (st : DbState) (p : PlantPayload) (hwf : plantsWf st) :
    plantsWf (plantsUpsert st p).1 := by
  intro k
  rw [keyCount_upsert]
  cases hf : st.plants.find? (fun r => r.key == p.key) with
  | some r => exact hwf k
  | none =>
    show keyCount st k + (if p.key = k then 1 else 0) ≤ 1
    by_cases hpk : p.key = k
    · rw [if_pos hpk]
      have h0 := keyCount_zero_of_find_none st p hf
      rw [hpk] at h0
      omega
    · rw [if_neg hpk]
      have := hwf k
      omega

theorem keyCount_upsert_self (st : DbState) (p : PlantPayload)
    (hwf : plantsWf st) : keyCount (plantsUpsert st p).1 p.key = 1 := by
  rw [keyCount_upsert]
  cases hf : st.plants.find? (fun r => r.key == p.key) with
  | some r =>
    show keyCount st p.key = 1
    have hr := List.mem_of_find?_eq_some hf
    have hkey : (r.key == p.key) = true := by
      have h2 := List.find?_some hf
      simpa using h2
    have hpos : 0 < keyCount st p.key := by
      unfold keyCount
      rw [List.countP_pos_iff]
      exact ⟨r, hr, hkey⟩
    have := hwf p.key
    omega
  | none =>
    show keyCount st p.key + (if p.key = p.key then 1 else 0) = 1
    rw [if_pos rfl]
    have h0 := keyCount_zero_of_find_none st p hf
    omega

theorem plantsUpsert_fields (st : DbState) (p : PlantPayload) :
    ∀ row ∈ (plantsUpsert st p).1.plants, row.key = p.key →
      row.common_name = p.common_name ∧ row.scientific_name = p.scientific_name ∧
      row.family = p.family ∧ row.genus = p.genus ∧
      row.reference_images = p.reference_images ∧
      row.plant_details = p.plant_details := by
  intro row hrow hkey
  unfold plantsUpsert at hrow
  cases hf : st.plants.find? (fun r => r.key == p.key) with
  | none =>
    rw [hf] at hrow
    simp only [List.mem_append, List.mem_singleton] at hrow
    rcases hrow with hrow | hrow
    · have := List.find?_eq_none.mp hf row hrow
      rw [hkey] at this
      simp at this
    · subst hrow
      exact ⟨rfl, rfl, rfl, rfl, rfl, rfl⟩
  | some r =>
    rw [hf] at hrow
    simp only [List.mem_map] at hrow
    obtain ⟨q, hq, hfq⟩ := hrow
    by_cases hqk : (q.key == p.key) = true
    · rw [if_pos hqk] at hfq
      subst hfq
      exact ⟨rfl, rfl, rfl, rfl, rfl, rfl⟩
    · rw [if_neg hqk] at hfq
      subst hfq
      rw [hkey] at hqk
      simp at hqk


theorem identifyDbStep_plants_state (st : DbState) (now : Nat) (b : ReqBody)
    (u : String) (best : Option BestMatch) (hwf : plantsWf st) :
    plantsWf (identifyDbStep st noFailOracle now b u best).2 ∧
    keyCount (identifyDbStep st noFailOracle now b u best).2 (plantKeyOf best) = 1 ∧
    ∀ row ∈ (identifyDbStep st noFailOracle now b u best).2.plants,
      row.key = plantKeyOf best →
        row.common_name = commonNameOf best ∧
        row.scientific_name = scientificNameOf best ∧
        row.family = familyOf best ∧
        row.genus = genusOf best ∧
        row.reference_images = referenceImagesOf best ∧
        row.plant_details = best := by
  unfold identifyDbStep
  simp only [noFailOracle, Bool.false_eq_true, if_false, sightingsInsert]
  refine ⟨fun k => ?_, ?_, ?_⟩
  · exact plantsWf_upsert _ (plantPayloadSnd best now)
      (plantsWf_upsert _ (plantPayloadFst best) hwf) k
  · exact keyCount_upsert_self _ (plantPayloadSnd best now)
      (plantsWf_upsert _ (plantPayloadFst best) hwf)
  · intro row hrow hkey
    exact plantsUpsert_fields _ (plantPayloadSnd best now) row hrow hkey

theorem runFlows_append (st : DbState) (runs : List RunInput) (r : RunInput) :
    runFlows st (runs ++ [r])
      = (identifyDbStep (runFlows st runs) noFailOracle r.now r.b r.u r.best).2 := by
  unfold runFlows
  rw [List.foldl_append]
  rfl

theorem plantsWf_runFlows (st : DbState) (runs : List RunInput)
    (hwf : plantsWf st) : plantsWf (runFlows st runs) := by
  induction runs generalizing st with
  | nil => exact hwf
  | cons r rest ih =>
    show plantsWf (runFlows ((identifyDbStep st noFailOracle r.now r.b r.u r.best).2) rest)
    exact ih _ ((identifyDbStep_plants_state st r.now r.b r.u r.best hwf).1)

/-- C3: the `plants` table holds at most one row per key — key-counts
stay at most one across identification runs — and after any non-empty
sequence of successful runs ending with a run whose plant key is `k`,
exactly one `plants` row has key `k` and its taxonomy, reference
images and raw details equal the latest run's extracted values. -/
theorem plants_upsert_dedup (st : DbState) (runs : List RunInput) (k : String)
    (hwf : plantsWf st) :
    plantsWf (runFlows st runs) ∧
    ∀ pre last, runs = pre ++ [last] → plantKeyOf last.best = k →
      keyCount (runFlows st runs) k = 1 ∧
      ∀ row ∈ (runFlows st runs).plants, row.key = k →
        row.common_name = commonNameOf last.best ∧
        row.scientific_name = scientificNameOf last.best ∧
        row.family = familyOf last.best ∧
        row.genus = genusOf last.best ∧
        row.reference_images = referenceImagesOf last.best ∧
        row.plant_details = last.best := by
  refine ⟨plantsWf_runFlows st runs hwf, ?_⟩
  intro pre last hru hkey
  subst hru
  subst hkey
  rw [runFlows_append]
  have hwfpre := plantsWf_runFlows st pre hwf
  have h5 := identifyDbStep_plants_state (runFlows st pre) last.now last.b last.u
    last.best hwfpre
  exact ⟨h5.2.1, h5.2.2⟩

/-- Witness for C3: two runs with the same key leave one row. -/
theorem plants_upsert_dedup_witness :
    keyCount (runFlows emptyDb
      [⟨{ imageUrl := some "http://a", lat := none, lng := none, organ := none },
          "http://a", none, 4⟩,
        ⟨{ imageUrl := some "http://b", lat := none, lng := none, organ := none },
          "http://b", none, 9⟩]) "unknown" = 1 :=
  ((plants_upsert_dedup emptyDb
      [⟨{ imageUrl := some "http://a", lat := none, lng := none, organ := none },
          "http://a", none, 4⟩,
        ⟨{ imageUrl := some "http://b", lat := none, lng := none, organ := none },
          "http://b", none, 9⟩] "unknown"
      (fun k => by simp [keyCount, emptyDb])).2
    [⟨{ imageUrl := some "http://a", lat := none, lng := none, organ := none },
        "http://a", none, 4⟩]
    ⟨{ imageUrl := some "http://b", lat := none, lng := none, organ := none },
        "http://b", none, 9⟩ rfl (by decide)).1


/-- Witness for C2 at a concrete two-row table. -/
theorem plant_log_dedup_witness :
    ((plantLog [sampleOak, sampleOakLater]).countP
      fun l => l.scientific_name == some "quercus") = 1 :=
  ((plant_log_dedup [sampleOak, sampleOakLater]).1 "quercus").trans (by decide)

/-- Witness for C8 at a concrete operation sequence. -/
theorem trees_append_only_witness :
    (∃ tail, applyTreesOps [sampleOak] [TreesOp.insert sampleOakLater, TreesOp.select]
      = [sampleOak] ++ tail) ∧
    ∀ r ∈ [sampleOak],
      r ∈ applyTreesOps [sampleOak] [TreesOp.insert sampleOakLater, TreesOp.select] :=
  trees_append_only [sampleOak] [TreesOp.insert sampleOakLater, TreesOp.select]

end TreeLog
